import Mathlib

/-!
Shallow embedding of the SyncBase repository (sync_item.py, sync_project.py,
yandex_disk_client.py) for checking its natural-language specification.

Python string primitives (strip, split, replace, startswith, ...) are embedded
as structural recursions over `List Char` so that every definition is
executable and kernel-reducible; filesystem and network effects are passed in
explicitly (observed filesystem entries, transport call results, HTTP response
scripts), mirroring the control flow of the source line by line.
-/

namespace SyncBase

/-! ### Python string helpers (List Char level) -/

/-- Python `candidate.startswith(pre)` on character lists. -/
def isPrefixOfList : List Char → List Char → Bool
  | [], _ => true
  | _ :: _, [] => false
  | p :: ps, c :: cs => p == c && isPrefixOfList ps cs

/-- Python `s.startswith(t)`. -/
def pyStartsWith (s t : String) : Bool := isPrefixOfList t.data s.data

/-- Python `s.endswith(t)`. -/
def pyEndsWith (s t : String) : Bool := isPrefixOfList t.data.reverse s.data.reverse

/-- Python `str.strip()` (whitespace at both ends) on character lists. -/
def stripList (cs : List Char) : List Char :=
  ((cs.dropWhile Char.isWhitespace).reverse.dropWhile Char.isWhitespace).reverse

/-- Python `s.strip()`. -/
def pyStrip (s : String) : String := ⟨stripList s.data⟩

/-- Split a character list on a separator character (Python `s.split(sep)` for
a one-character separator). -/
def splitOnChar (sep : Char) : List Char → List (List Char)
  | [] => [[]]
  | c :: cs =>
    let rest := splitOnChar sep cs
    if c == sep then [] :: rest
    else match rest with
      | [] => [[c]]
      | r :: rs => (c :: r) :: rs

/-- Python `s.split(sep)` for a one-character separator string. -/
def pySplit (s : String) (sep : Char) : List String :=
  (splitOnChar sep s.data).map (fun cs => ⟨cs⟩)

/-- Python `sep.join(parts)` for a one-character separator. -/
def pyJoin (sep : Char) : List String → String
  | [] => ""
  | [p] => p
  | p :: ps => p ++ ⟨[sep]⟩ ++ pyJoin sep ps

/-- Python `s.replace(old, new)` for one-character `old`/`new` (all
occurrences). -/
def pyReplaceChar (s : String) (old new : Char) : String :=
  ⟨s.data.map (fun c => if c == old then new else c)⟩

/-- Python `s.lstrip('/')`. -/
def pyLstripSlash (s : String) : String := ⟨s.data.dropWhile (· == '/')⟩

/-- Python `ch in s` (membership of a character in a string). -/
def pyContainsChar (s : String) (c : Char) : Bool := s.data.contains c

/-- Python `s[1:]` (drop the first character). -/
def pyDropOne (s : String) : String := ⟨s.data.drop 1⟩

/-- Python `s[:-1]` (drop the last character). -/
def pyDropLast (s : String) : String := ⟨s.data.dropLast⟩

/-- Value of a nonempty all-digit character list, Python-`int` style. -/
def digitsVal : List Char → Option Nat
  | [] => none
  | [c] => if c.isDigit then some (c.toNat - '0'.toNat) else none
  | c :: cs =>
    if c.isDigit then
      match digitsVal cs with
      | some n => some ((c.toNat - '0'.toNat) * 10 ^ cs.length + n)
      | none => none
    else none

/-- Python `int(s)`: strips whitespace, accepts an optional sign followed by
digits, raises (here: `none`) otherwise. -/
def pyToInt (s : String) : Option Int :=
  match stripList s.data with
  | '-' :: rest => (digitsVal rest).map (fun n => -(n : Int))
  | '+' :: rest => (digitsVal rest).map (fun n => (n : Int))
  | cs => (digitsVal cs).map (fun n => (n : Int))

/-- `os.path.basename` for forward-slash paths: the part after the last `/`. -/
def pyBasename (s : String) : String :=
  match (pySplit s '/').getLast? with
  | some p => p
  | none => s

/-! ### sync_item.py: ItemType, ItemState -/

/-- `ItemType = Literal['file', 'dir', 'empty']` from sync_item.py. -/
inductive ItemType
  | file
  | dir
  | empty
deriving DecidableEq, Repr

/-- `ItemState` from sync_item.py: observed state of one path on one side.
`modified` is a timestamp, embedded as an integer. -/
structure ItemState where
  path : String
  modified : Int
  md5 : String
  type : ItemType
  size : Nat
deriving DecidableEq, Repr

/-- `ItemState.__init__`: path `""`, `modified = datetime.now()` (passed in as
`now`), `md5 = ""`, `type = 'empty'`, `size = 0`. -/
def ItemState.init (now : Int) : ItemState :=
  { path := "", modified := now, md5 := "", type := .empty, size := 0 }

/-- Payload of `ItemState.from_dict`: the `dict` argument, with the fields the
method reads. `none` for an absent key. -/
structure StateDict where
  md5 : Option String
  type : Option ItemType
  size : Option Nat
  modified : Option Int
deriving DecidableEq, Repr

/-- `ItemState.from_dict`: a falsy dict (`none` here) is a no-op; otherwise
each present key overwrites the corresponding field (an absent or unparsable
`modified` leaves the old value). -/
def ItemState.from_dict (st : ItemState) (data : Option StateDict) : ItemState :=
  match data with
  | none => st
  | some d =>
    { st with
      md5 := d.md5.getD st.md5
      type := d.type.getD st.type
      size := d.size.getD st.size
      modified := d.modified.getD st.modified }

/-! ### sync_item.py: SyncItem state mutators

Filesystem and Transport effects are passed in as observed results: the
mutators below are the exact state transitions the source performs around
those calls. -/

/-- What `calc_local_state` observes on disk for one path. -/
inductive FsEntry
  | missing
  | file (md5 : String) (mtime : Int) (size : Nat)
  | dir (mtime : Int)
deriving DecidableEq, Repr

/-- Result of a local filesystem mutation attempt (`rmtree`/`unlink`/...). -/
inductive FsOutcome
  | ok
  | notFound
  | err
deriving DecidableEq, Repr

namespace SyncItem

/-- `SyncItem.calc_local_state`: sets `type` from the path's existence and
kind; for a file also md5, modified and size; for a dir also modified; for a
missing path only the type is written. -/
def calc_local_state (fs : FsEntry) (st : ItemState) : ItemState :=
  match fs with
  | .missing => { st with type := .empty }
  | .file md5 mtime size =>
    { st with type := .file, md5 := md5, modified := mtime, size := size }
  | .dir mtime => { st with type := .dir, modified := mtime }

/-- `SyncItem.remove_cloud`: calls `yandex_disk_client.remove` (whose boolean
result `removeResult` the source ignores) and then sets
`cloud_state.type = 'empty'` unconditionally. -/
def remove_cloud (removeResult : Bool) (st : ItemState) : ItemState :=
  { st with type := .empty }

/-- `SyncItem.remove_cloud_dir`: same shape as `remove_cloud`. -/
def remove_cloud_dir (removeResult : Bool) (st : ItemState) : ItemState :=
  { st with type := .empty }

/-- `SyncItem.remove_local`: for a dir runs `rmtree`, for a file `unlink`,
setting `type = 'empty'` only when the call returns; `FileNotFoundError` and
other exceptions are caught and leave the state unchanged. -/
def remove_local (out : FsOutcome) (st : ItemState) : ItemState :=
  match st.type with
  | .dir | .file =>
    match out with
    | .ok => { st with type := .empty }
    | .notFound => st
    | .err => st
  | .empty => st

/-- `SyncItem.remove_local_dir`: only when the path exists and is a directory
runs `rmdir`; `type = 'empty'` is written only when `rmdir` returns (a raised
exception is caught and leaves the state unchanged). -/
def remove_local_dir (existsIsDir : Bool) (rmdirOk : Bool) (st : ItemState) : ItemState :=
  if existsIsDir then
    if rmdirOk then { st with type := .empty } else st
  else st

/-- `SyncItem.create_local_dir`: `mkdir(parents=True, exist_ok=True)` then
`type = 'dir'`; a raised exception is caught and leaves the state unchanged. -/
def create_local_dir (mkdirRes : Except Unit Unit) (st : ItemState) : ItemState :=
  match mkdirRes with
  | .ok _ => { st with type := .dir }
  | .error _ => st

/-- `SyncItem.create_cloud_dir`: calls `yandex_disk_client.create_dir`; when
that call returns (with either boolean result) the source sets
`cloud_state.type = 'dir'`; only a raised exception (caught and logged) leaves
the state unchanged. -/
def create_cloud_dir (createDirRes : Except Unit Bool) (st : ItemState) : ItemState :=
  match createDirRes with
  | .ok _ => { st with type := .dir }
  | .error _ => st

end SyncItem

/-! ### fnmatch (Python glob matching, used by SyncIgnore.should_ignore) -/

/-- One compiled glob token: `*`, `?`, a literal character, or a bracket
class `[...]` (possibly negated with `!`). -/
inductive GlobTok
  | star
  | anyOne
  | lit (c : Char)
  | cls (neg : Bool) (content : List Char)
deriving DecidableEq, Repr

/-- Scan for the closing `]` of a bracket class, returning the class content
and the remaining pattern; `none` when the class is unterminated. -/
def findCloseBracket : List Char → Option (List Char × List Char)
  | [] => none
  | c :: rest =>
    if c = ']' then some ([], rest)
    else
      match findCloseBracket rest with
      | some (content, r) => some (c :: content, r)
      | none => none

lemma findCloseBracket_length :
    ∀ (cs content rest : List Char),
      findCloseBracket cs = some (content, rest) → rest.length < cs.length := by
  intro cs
  induction cs with
  | nil => intro content rest h; simp [findCloseBracket] at h
  | cons c cs ih =>
    intro content rest h
    simp only [findCloseBracket] at h
    by_cases hc : c = ']'
    · rw [if_pos hc] at h
      simp only [Option.some.injEq, Prod.mk.injEq] at h
      rw [← h.2]
      simp only [List.length_cons]
      omega
    · rw [if_neg hc] at h
      split at h
      · next content' r' heq =>
        simp only [Option.some.injEq, Prod.mk.injEq] at h
        rw [← h.2]
        have := ih content' r' heq
        simp only [List.length_cons]
        omega
      · simp at h

/-- fnmatch.translate: after the optional `!`, a `]` in first position is
literal class content; then scan for the closing `]`. -/
def parseAfterNeg (cs : List Char) : Option (List Char × List Char) :=
  match cs with
  | [] => findCloseBracket []
  | c :: r =>
    if c = ']' then
      match findCloseBracket r with
      | some (content, rest) => some (']' :: content, rest)
      | none => none
    else findCloseBracket (c :: r)

lemma parseAfterNeg_length :
    ∀ (cs content rest : List Char),
      parseAfterNeg cs = some (content, rest) → rest.length < cs.length := by
  intro cs content rest h
  cases cs with
  | nil => simp [parseAfterNeg, findCloseBracket] at h
  | cons c r =>
    simp only [parseAfterNeg] at h
    by_cases hc : c = ']'
    · rw [if_pos hc] at h
      split at h
      · next content' rest' heq =>
        simp only [Option.some.injEq, Prod.mk.injEq] at h
        rw [← h.2]
        have := findCloseBracket_length r content' rest' heq
        simp only [List.length_cons]
        omega
      · simp at h
    · rw [if_neg hc] at h
      exact findCloseBracket_length _ _ _ h

/-- Parse a full bracket class body (everything after the opening `[`):
optional negation `!`, then content up to the closing `]`. -/
def parseBracketClass (cs : List Char) : Option (Bool × List Char × List Char) :=
  match cs with
  | [] => (parseAfterNeg []).map (fun p => (false, p.1, p.2))
  | c :: cs1 =>
    if c = '!' then (parseAfterNeg cs1).map (fun p => (true, p.1, p.2))
    else (parseAfterNeg (c :: cs1)).map (fun p => (false, p.1, p.2))

lemma parseBracketClass_length :
    ∀ (cs : List Char) (neg : Bool) (content rest : List Char),
      parseBracketClass cs = some (neg, content, rest) → rest.length < cs.length := by
  intro cs neg content rest h
  cases cs with
  | nil => simp [parseBracketClass, parseAfterNeg, findCloseBracket] at h
  | cons c cs1 =>
    simp only [parseBracketClass] at h
    by_cases hc : c = '!'
    · rw [if_pos hc] at h
      simp only [Option.map_eq_some'] at h
      obtain ⟨⟨content', rest'⟩, heq, hinj⟩ := h
      simp only [Prod.mk.injEq] at hinj
      rw [← hinj.2.2]
      have := parseAfterNeg_length cs1 content' rest' heq
      simp only [List.length_cons]
      omega
    · rw [if_neg hc] at h
      simp only [Option.map_eq_some'] at h
      obtain ⟨⟨content', rest'⟩, heq, hinj⟩ := h
      simp only [Prod.mk.injEq] at hinj
      rw [← hinj.2.2]
      exact parseAfterNeg_length _ _ _ heq

/-- Compile a glob pattern to tokens; an unterminated `[` is a literal. -/
def compileGlob (cs : List Char) : List GlobTok :=
  match cs with
  | [] => []
  | c :: ps =>
    if c = '*' then .star :: compileGlob ps
    else if c = '?' then .anyOne :: compileGlob ps
    else if c = '[' then
      match h : parseBracketClass ps with
      | some (neg, content, rest) =>
        have hlt : rest.length < ps.length := parseBracketClass_length ps neg content rest h
        .cls neg content :: compileGlob rest
      | none => .lit '[' :: compileGlob ps
    else .lit c :: compileGlob ps
termination_by cs.length
decreasing_by
  all_goals simp only [List.length_cons]
  all_goals omega

/-- Does a character match a bracket-class content (with `a-b` ranges,
compared by code point, as in the regex fnmatch.translate emits)? -/
def classMatches : List Char → Char → Bool
  | [], _ => false
  | a :: '-' :: b :: rest, c =>
    (decide (a.toNat ≤ c.toNat) && decide (c.toNat ≤ b.toNat)) || classMatches rest c
  | a :: rest, c => (a == c) || classMatches rest c

/-- Match compiled glob tokens against a character list; the whole string
must be consumed (fnmatch anchors its regex at both ends), `*` crosses any
characters including `/`. -/
def tokMatch : List GlobTok → List Char → Bool
  | [], s => s.isEmpty
  | .star :: ps, [] => tokMatch ps []
  | .star :: ps, c :: s' => tokMatch ps (c :: s') || tokMatch (.star :: ps) s'
  | .anyOne :: ps, s =>
    match s with
    | [] => false
    | _ :: s' => tokMatch ps s'
  | .lit c :: ps, s =>
    match s with
    | [] => false
    | d :: s' => (c == d) && tokMatch ps s'
  | .cls neg content :: ps, s =>
    match s with
    | [] => false
    | d :: s' =>
      (if neg then !(classMatches content d) else classMatches content d) && tokMatch ps s'
termination_by ps s => (ps.length, s.length)

/-- `fnmatch.fnmatch(name, pat)` (posix: normcase is the identity). -/
def fnmatch (name pat : String) : Bool := tokMatch (compileGlob pat.data) name.data

/-! ### sync_project.py: SyncIgnore -/

/-- One parsed .syncignore rule, as built by `SyncIgnore.parse_rules`. -/
structure IgnoreRule where
  pattern : String
  negate : Bool
  is_directory : Bool
  absolute : Bool
deriving DecidableEq, Repr

namespace SyncIgnore

/-- `SyncIgnore.parse_rules`: falsy text gives no rules; otherwise split the
stripped text into lines, skip blank lines and `#` comments, strip a leading
`!` (negation) and a leading `/`, and record pattern, negation flag,
directory-only flag (trailing `/`) and literal flag (no `*?[`). -/
def parse_rules (rulesText : String) : List IgnoreRule :=
  if rulesText = "" then []
  else
    (pySplit (pyStrip rulesText) '\n').foldl
      (fun acc line =>
        let line := pyStrip line
        if line = "" || pyStartsWith line "#" then acc
        else
          let negate := pyStartsWith line "!"
          let line := if negate then pyDropOne line else line
          let line := if pyStartsWith line "/" then pyDropOne line else line
          acc ++ [{ pattern := line
                    negate := negate
                    is_directory := pyEndsWith line "/"
                    absolute := !(pyContainsChar line '*' || pyContainsChar line '?'
                                    || pyContainsChar line '[') }])
      []

/-- `SyncIgnore.should_ignore`: normalize the path, then fold over the rules;
directory-only rules skip file candidates; a literal rule matches by equality
or by `pattern + "/"` prefix; a glob rule matches the full path, the basename,
or any prefix-join of the path segments; each match overwrites the ignored
flag with `not negate` (last match wins). -/
def should_ignore (rules : List IgnoreRule) (filePath : String) (isDirectory : Bool) : Bool :=
  if rules.isEmpty || filePath = "" then false
  else
    let path := pyLstripSlash (pyReplaceChar filePath '\\' '/')
    rules.foldl
      (fun ignored rule =>
        if rule.is_directory && !isDirectory then ignored
        else
          let pattern := if pyEndsWith rule.pattern "/" then pyDropLast rule.pattern
                         else rule.pattern
          let matched :=
            if rule.absolute then
              path == pattern || pyStartsWith path (pattern ++ "/")
            else
              let path_parts := pySplit path '/'
              fnmatch path pattern || fnmatch (pyBasename path) pattern ||
                (List.range path_parts.length).any
                  (fun i => fnmatch (pyJoin '/' (path_parts.take (i + 1))) pattern)
          if matched then !rule.negate else ignored)
      false

end SyncIgnore

/-! ### sync_project.py: classification (cloud_scan) and sync_save -/

/-- The data of one `SyncItem` that classification and the save pipeline
read: its cloud path (the `sorted` key in `multythread_operation`) and the
local/cloud types and md5 hashes of its two `ItemState`s. -/
structure SyncItemD where
  cloudPath : String
  localType : ItemType
  cloudType : ItemType
  localMd5 : String
  cloudMd5 : String
deriving DecidableEq, Repr

/-- The condition of the classification pass at the end of `cloud_scan`:
`sync_item.local_type != sync_item.cloud_type or
 sync_item.local_state.md5 != sync_item.cloud_state.md5`. -/
def needsUpdate (it : SyncItemD) : Bool :=
  it.localType != it.cloudType || it.localMd5 != it.cloudMd5

/-- The `items_need_for_update` 3×3 dict-of-dicts of lists, as a function of
the two type keys. -/
def UpdateMatrix := ItemType → ItemType → List SyncItemD

/-- One iteration of the classification loop in `cloud_scan`: append the item
to `items_need_for_update[local_type][cloud_type]` when `needsUpdate`. -/
def classifyStep (m : UpdateMatrix) (it : SyncItemD) : UpdateMatrix :=
  if needsUpdate it then
    fun a b => if a = it.localType ∧ b = it.cloudType then m a b ++ [it] else m a b
  else m

/-- The classification pass of `cloud_scan` over all scanned `sync_items`,
starting from the all-empty matrix built in `SyncProject.__init__`. -/
def classify (items : List SyncItemD) : UpdateMatrix :=
  items.foldl classifyStep (fun _ _ => [])

lemma foldl_classifyStep (items : List SyncItemD) :
    ∀ (m : UpdateMatrix) (a b : ItemType),
      items.foldl classifyStep m a b =
        m a b ++ items.filter
          (fun it => needsUpdate it && (it.localType == a) && (it.cloudType == b)) := by
  induction items with
  | nil => intro m a b; simp
  | cons x xs ih =>
    intro m a b
    rw [List.foldl_cons, List.filter_cons, ih]
    by_cases hup : needsUpdate x = true
    · by_cases hab : a = x.localType ∧ b = x.cloudType
      · obtain ⟨ha, hb⟩ := hab
        subst ha
        subst hb
        have hpred : (needsUpdate x && (x.localType == x.localType)
            && (x.cloudType == x.cloudType)) = true := by simp [hup]
        rw [hpred]
        simp [classifyStep, hup]
      · have hpred : (needsUpdate x && (x.localType == a) && (x.cloudType == b)) = false := by
          rcases not_and_or.mp hab with h | h
          · have hne : (x.localType == a) = false := by
              simp only [beq_eq_false_iff_ne, ne_eq]
              intro hx; exact h hx.symm
            simp [hne]
          · have hne : (x.cloudType == b) = false := by
              simp only [beq_eq_false_iff_ne, ne_eq]
              intro hx; exact h hx.symm
            simp [hne]
        rw [hpred]
        simp [classifyStep, hup, hab]
    · have hup' : needsUpdate x = false := by revert hup; cases needsUpdate x <;> simp
      have hpred : (needsUpdate x && (x.localType == a) && (x.cloudType == b)) = false := by
        simp [hup']
      rw [hpred]
      simp [classifyStep, hup']

/-- `classify` as a filter: each matrix cell holds, in scan order, exactly
the items whose types index that cell and which need an update. -/
lemma classify_eq_filter (items : List SyncItemD) (a b : ItemType) :
    classify items a b =
      items.filter
        (fun it => needsUpdate it && (it.localType == a) && (it.cloudType == b)) := by
  rw [classify, foldl_classifyStep]
  rfl

/-- The actions `sync_save` dispatches to `multythread_operation`. -/
inductive SaveAction
  | removeCloud (it : SyncItemD)
  | createCloudDir (it : SyncItemD)
  | uploadFile (it : SyncItemD)
deriving DecidableEq, Repr

/-- Insert into a list sorted by `cloudPath` (ascending), modelling Python's
`sorted(items, key=lambda x: x.cloud_path)`. -/
def insertByCloudPath (it : SyncItemD) : List SyncItemD → List SyncItemD
  | [] => [it]
  | x :: xs =>
    if it.cloudPath < x.cloudPath then it :: x :: xs
    else x :: insertByCloudPath it xs

/-- Sort by `cloudPath` (insertion sort). -/
def sortByCloudPath : List SyncItemD → List SyncItemD
  | [] => []
  | x :: xs => insertByCloudPath x (sortByCloudPath xs)

lemma insertByCloudPath_perm (it : SyncItemD) :
    ∀ (l : List SyncItemD), (insertByCloudPath it l).Perm (it :: l) := by
  intro l
  induction l with
  | nil => simp [insertByCloudPath]
  | cons x xs ih =>
    rw [insertByCloudPath]
    by_cases hlt : it.cloudPath < x.cloudPath
    · rw [if_pos hlt]
    · rw [if_neg hlt]
      exact (ih.cons x).trans (List.Perm.swap it x xs)

lemma sortByCloudPath_perm :
    ∀ (l : List SyncItemD), (sortByCloudPath l).Perm l := by
  intro l
  induction l with
  | nil => simp [sortByCloudPath]
  | cons x xs ih =>
    rw [sortByCloudPath]
    exact (insertByCloudPath_perm x (sortByCloudPath xs)).trans (ih.cons x)

/-- `SyncProject.multythread_operation(handler, *items)`: no-op on an empty
list, otherwise submits `handler(item)` for every item of
`sorted(items, key=lambda x: x.cloud_path)` to a bounded thread pool and —
because the pool is used inside a `with` block — joins all workers before
returning. The executed batch is modelled as the list of dispatched actions
in submission order. -/
def multythread_operation (handler : SyncItemD → SaveAction) (items : List SyncItemD) :
    List SaveAction :=
  (sortByCloudPath items).map handler

/-- `SyncProject.sync_save` after the scans: the three sequential
`multythread_operation` batches over the matrix cells, in source order.
Each call returns only after its whole pool has completed, so the run is the
concatenation of the three batches. -/
def sync_save (m : UpdateMatrix) : List SaveAction :=
  multythread_operation SaveAction.removeCloud
      (m .empty .file ++ m .empty .dir ++ m .file .dir ++ m .dir .file)
    ++ multythread_operation SaveAction.createCloudDir
      (m .dir .empty ++ m .dir .file)
    ++ multythread_operation SaveAction.uploadFile
      (m .file .empty ++ m .file .dir ++ m .file .file)

/-- `sync_save` over freshly classified scan results. -/
def syncSaveRun (items : List SyncItemD) : List SaveAction :=
  sync_save (classify items)

/-! ### yandex_disk_client.py: _make_request retry machinery -/

/-- The slice of an HTTP response `_make_request` inspects: the status code
and the `Retry-After` header (when present). -/
structure HttpResp where
  status : Nat
  retryAfter : Option String
deriving DecidableEq, Repr

/-- What one attempt of the request loop observes: a response, a retryable
network-layer exception (ConnectionError / Timeout / ChunkedEncodingError),
or another RequestException (never retried). -/
inductive NetOutcome
  | resp (r : HttpResp)
  | netErr
  | reqErr
deriving DecidableEq, Repr

/-- `int(response.headers.get('Retry-After', '1'))` with
`except (ValueError, TypeError): retry_after = 1`. -/
def parseRetryAfter (h : Option String) : Int :=
  match h with
  | none => 1
  | some s =>
    match pyToInt s with
    | some n => n
    | none => 1

/-- A `time.sleep` performed by the retry loop: either the rate-limit wait
`min(retry_after, 60)` or the exponential backoff for an attempt (whose
10–50% uniform jitter is nondeterministic and left out of the event). -/
inductive SleepEvent
  | rateLimit (secs : Int)
  | backoff (attempt : Nat)
deriving DecidableEq, Repr

/-- `_calculate_backoff_time`'s deterministic base delay:
`min(2 ** attempt, 32)`. -/
def backoffBase (attempt : Nat) : Nat := min (2 ^ attempt) 32

/-- The `for attempt in range(max_retries + 1)` loop of `_make_request`,
with `remaining = max_retries - attempt` retries left (so the
`attempt < max_retries` guards hold exactly when `remaining > 0`).
Returns the function's result together with the sleeps performed. -/
def makeRequestGo (outcomes : Nat → NetOutcome) (attempt : Nat) :
    (remaining : Nat) → Option HttpResp × List SleepEvent
  | 0 =>
    match outcomes attempt with
    | .resp r => (some r, [])
    | .netErr => (none, [])
    | .reqErr => (none, [])
  | remaining + 1 =>
    match outcomes attempt with
    | .resp r =>
      if r.status = 429 then
        let next := makeRequestGo outcomes (attempt + 1) remaining
        (next.1, .rateLimit (min (parseRetryAfter r.retryAfter) 60) :: next.2)
      else if 500 ≤ r.status then
        let next := makeRequestGo outcomes (attempt + 1) remaining
        (next.1, .backoff attempt :: next.2)
      else (some r, [])
    | .netErr =>
      let next := makeRequestGo outcomes (attempt + 1) remaining
      (next.1, .backoff attempt :: next.2)
    | .reqErr => (none, [])

/-- `YandexDiskClient._make_request` with a given `max_retries`: the method,
URL and params are fixed before the loop, so every attempt issues the same
request; only the observed outcome (indexed by attempt number) varies. -/
def makeRequest (maxRetries : Nat) (outcomes : Nat → NetOutcome) :
    Option HttpResp × List SleepEvent :=
  makeRequestGo outcomes 0 maxRetries

/-- The `max_retries: int = 3` default of `_make_request`'s signature. -/
def defaultMaxRetries : Nat := 3

/-- The upload-URL request in `_upload_file_with_progress`:
`self._make_request("GET", "/upload", params=params)` — called without a
`max_retries` argument, so it runs with the signature default. -/
def uploadUrlRequest (outcomes : Nat → NetOutcome) : Option HttpResp × List SleepEvent :=
  makeRequest defaultMaxRetries outcomes

/-- A generic API call (`list`, `exists`, `create_dir`, `remove`, `move`,
`copy`, ...): also `_make_request` with the signature default. -/
def apiRequest (outcomes : Nat → NetOutcome) : Option HttpResp × List SleepEvent :=
  makeRequest defaultMaxRetries outcomes

/-- An attempt outcome `_make_request` retries: an HTTP 429 or ≥500
response. -/
def retryableResp (o : NetOutcome) : Prop :=
  ∃ r, o = NetOutcome.resp r ∧ (r.status = 429 ∨ 500 ≤ r.status)

/-! ### yandex_disk_client.py: create_dir / remove / move / copy / upload -/

/-- A Python runtime error surfaced by the embedded code. -/
inductive PyErr
  | attributeError
deriving DecidableEq, Repr

namespace YandexDiskClient

/-- `create_dir` after its PUT response: `response.status_code` is read with
no `None` guard, so a `None` from `_make_request` raises `AttributeError`.
The 409 branch consults `exists` (`existsRes`) and, with `create_parent`,
evaluates `self.create_dir(parent) and self.create_dir(path, False)`
(short-circuiting), whose sub-results are passed in as `parentRes` /
`retryRes`. -/
def create_dir (resp : Option HttpResp) (createParent : Bool) (existsRes : Bool)
    (parentRes retryRes : Except PyErr Bool) : Except PyErr Bool :=
  match resp with
  | none => .error .attributeError
  | some r =>
    if r.status = 201 then .ok true
    else if r.status = 409 then
      if existsRes then .ok true
      else if createParent then
        match parentRes with
        | .error e => .error e
        | .ok false => .ok false
        | .ok true => retryRes
      else .ok false
    else .ok false

/-- `remove`: `if response and response.status_code in (202, 204)` — guarded
against a `None` response. -/
def remove (resp : Option HttpResp) : Bool :=
  match resp with
  | some r => r.status == 202 || r.status == 204
  | none => false

/-- `move`: `if response and response.status_code in (201, 202)`. -/
def move (resp : Option HttpResp) : Bool :=
  match resp with
  | some r => r.status == 201 || r.status == 202
  | none => false

/-- `copy`: `if response and response.status_code in (201, 202)`. -/
def copy (resp : Option HttpResp) : Bool :=
  match resp with
  | some r => r.status == 201 || r.status == 202
  | none => false

end YandexDiskClient

/-- One cloud-side operation issued by the client, for operation traces. -/
inductive CloudOp
  | existsCheck (p : String)
  | createDir (p : String)
  | getUploadUrl (p : String)
  | putBytes (p : String)
  | move (src dst : String)
  | remove (p : String)
deriving DecidableEq, Repr

/-- `Path(p).parent` for forward-slash paths. -/
def parentDir (p : String) : String :=
  let parts := pySplit p '/'
  if parts.length ≤ 1 then "." else pyJoin '/' parts.dropLast

namespace YandexDiskClient

/-- `_upload_file_with_progress(local, cloud_path, overwrite, False)`: get a
signed URL from `GET /upload`; fail on a `None` response or a status ≥400;
otherwise PUT the bytes to the URL and succeed iff the status is 201/202.
Returns the boolean result plus the cloud operations performed. -/
def upload_file_with_progress (cloudPath : String) (urlResp : Option HttpResp)
    (putStatus : Nat) : Bool × List CloudOp :=
  match urlResp with
  | none => (false, [.getUploadUrl cloudPath])
  | some r =>
    if 400 ≤ r.status then (false, [.getUploadUrl cloudPath])
    else ((putStatus == 201 || putStatus == 202), [.getUploadUrl cloudPath, .putBytes cloudPath])

/-- `upload(local_path, cloud_path, overwrite=True, create_parent=True)`:
ensure the parent directory, upload the bytes to
`cloud_path.as_posix() + ".tmp"` via `_upload_file_with_progress`, then
`move` the temp object onto the final name; when the move fails, best-effort
`remove` the temp object and return failure. Sub-call results are passed in
(`parentExists` for the `exists` check, `createParentOk` for `create_dir`,
`urlResp`/`putStatus` for the transfer, `moveOk` for the rename). -/
def upload (cloudPath : String) (parentExists createParentOk : Bool)
    (urlResp : Option HttpResp) (putStatus : Nat) (moveOk : Bool) :
    Bool × List CloudOp :=
  let par := parentDir cloudPath
  let preOps := if parentExists then [CloudOp.existsCheck par]
                else [CloudOp.existsCheck par, CloudOp.createDir par]
  if !parentExists && !createParentOk then (false, preOps)
  else
    let tmp := cloudPath ++ ".tmp"
    let up := upload_file_with_progress tmp urlResp putStatus
    if !up.1 then (false, preOps ++ up.2)
    else if !moveOk then
      (false, preOps ++ up.2 ++ [CloudOp.move tmp cloudPath, CloudOp.remove tmp])
    else (true, preOps ++ up.2 ++ [CloudOp.move tmp cloudPath])

end YandexDiskClient

/-! ### sync_project.py: get_cache and show_status -/

/-- Per-file record the snapshot cache stores (of `ItemState.to_dict`, the
fields `show_status` reads back). -/
structure CacheFileInfo where
  md5 : String
  size : Nat
deriving DecidableEq, Repr

/-- The parsed `.project_cache.json` content `show_status` consumes. -/
structure CacheData where
  lastUpdated : String
  files : List (String × CacheFileInfo)
  dirs : List String
deriving DecidableEq, Repr

/-- State of the cache file on disk: absent, present but unparsable JSON, or
parsed content. -/
inductive CacheRead
  | missing
  | corrupt
  | parsed (c : CacheData)
deriving DecidableEq, Repr

/-- `SyncProject.get_cache`: `None` when the file does not exist; reading or
parsing errors are caught (`except Exception`), logged and give `None`;
otherwise the parsed JSON. -/
def get_cache : CacheRead → Option CacheData
  | .missing => none
  | .corrupt => none
  | .parsed c => some c

/-- What the local scan observed for one path (`show_status` only reads the
type, md5 and size of each scanned item's local state). -/
inductive LocalKind
  | file (md5 : String) (size : Nat)
  | dir
deriving DecidableEq, Repr

/-- The report `show_status` prints. -/
inductive StatusReport
  | noBaseline
  | inSync
  | changes (newFiles removedFiles newDirs removedDirs changedFiles : List String)
deriving DecidableEq, Repr

/-- `SyncProject.show_status`: read the cache (no baseline → report and
return), run `local_scan` — a pure local-filesystem walk
(`_scan_local_items` / `calc_local_state` / `mkdir` / `touch`), which never
calls `yandex_disk_client` and so contributes no cloud operations — and diff
the scanned file/dir path sets against the cached ones, flagging files
present on both sides whose md5 differs. The second component is the trace
of cloud operations issued, collected from every sub-call. -/
def show_status (cr : CacheRead) (localItems : List (String × LocalKind)) :
    StatusReport × List CloudOp :=
  match get_cache cr with
  | none => (.noBaseline, [])
  | some cache =>
    let current_files := localItems.filterMap (fun pk =>
      match pk.2 with
      | .file md5 size => some (pk.1, md5, size)
      | .dir => none)
    let current_dirs := localItems.filterMap (fun pk =>
      match pk.2 with
      | .dir => some pk.1
      | _ => none)
    let cache_file_paths := cache.files.map Prod.fst
    let current_file_paths := current_files.map Prod.fst
    let new_files := current_file_paths.filter (fun p => !cache_file_paths.contains p)
    let removed_files := cache_file_paths.filter (fun p => !current_file_paths.contains p)
    let new_dirs := current_dirs.filter (fun p => !cache.dirs.contains p)
    let removed_dirs := cache.dirs.filter (fun p => !current_dirs.contains p)
    let changed_files := (cache_file_paths.filter
        (fun p => current_file_paths.contains p)).filter
      (fun p =>
        let cmd5 := ((cache.files.find? (fun q => q.1 == p)).map (fun q => q.2.md5)).getD ""
        let nmd5 := ((current_files.find? (fun q => q.1 == p)).map (fun q => q.2.1)).getD ""
        cmd5 != nmd5)
    if new_files.isEmpty && removed_files.isEmpty && new_dirs.isEmpty
        && removed_dirs.isEmpty && changed_files.isEmpty then
      (.inSync, [])
    else (.changes new_files removed_files new_dirs removed_dirs changed_files, [])

/-! ### Sample values used by concrete witnesses -/

/-- A scanned item that exists locally as a file and not in the cloud. -/
def itemW : SyncItemD :=
  { cloudPath := "app:/cat/proj/a.txt", localType := .file, cloudType := .empty,
    localMd5 := "h1", cloudMd5 := "" }

/-- The rule list of the spec's negation property. -/
def buildRules : List IgnoreRule := SyncIgnore.parse_rules "build/\n!build/keep.txt"

/-! ### Claim theorems -/

/-- C2: after the classification pass at the end of `cloud_scan`, membership
of an item in matrix cell `(a, b)` forces `a`/`b` to be the item's own
local/cloud types together with a type or hash mismatch — so an item is
never in two cells and a diagonal cell with identical kind and hash is never
populated; an item whose kinds and hashes both match lands in no cell at
all; and an item with differing kinds, or with two file kinds and differing
hashes, lands in exactly its own cell. -/
theorem claim_C2_classification (items : List SyncItemD) (it : SyncItemD) (a b : ItemType) :
    (it ∈ classify items a b →
      a = it.localType ∧ b = it.cloudType ∧
        (it.localType ≠ it.cloudType ∨ it.localMd5 ≠ it.cloudMd5)) ∧
    (it ∈ classify items a a → it.localMd5 ≠ it.cloudMd5) ∧
    (it ∈ items → it.localType = it.cloudType → it.localMd5 = it.cloudMd5 →
      it ∉ classify items a b) ∧
    (it ∈ items →
      (it.localType ≠ it.cloudType ∨
        (it.localType = ItemType.file ∧ it.cloudType = ItemType.file ∧
          it.localMd5 ≠ it.cloudMd5)) →
      it ∈ classify items it.localType it.cloudType) := by
  have key : ∀ (a' b' : ItemType), it ∈ classify items a' b' →
      a' = it.localType ∧ b' = it.cloudType ∧
        (it.localType ≠ it.cloudType ∨ it.localMd5 ≠ it.cloudMd5) := by
    intro a' b' h
    rw [classify_eq_filter] at h
    have hp := (List.mem_filter.mp h).2
    simp only [needsUpdate, Bool.and_eq_true, Bool.or_eq_true, bne_iff_ne, ne_eq,
      beq_iff_eq] at hp
    exact ⟨hp.1.2.symm, hp.2.symm, by tauto⟩
  refine ⟨key a b, ?_, ?_, ?_⟩
  · intro h
    obtain ⟨ha, hb, hne⟩ := key a a h
    rcases hne with hne | hne
    · exact absurd (ha.symm.trans hb) hne
    · exact hne
  · intro hmem heq hmd5 hcontra
    obtain ⟨_, _, hne⟩ := key a b hcontra
    rcases hne with hne | hne
    · exact hne heq
    · exact hne hmd5
  · intro hmem hcond
    rw [classify_eq_filter]
    refine List.mem_filter.mpr ⟨hmem, ?_⟩
    simp only [needsUpdate, Bool.and_eq_true, Bool.or_eq_true, bne_iff_ne, ne_eq,
      beq_iff_eq, beq_self_eq_true, and_true, true_and]
    tauto

/-- Witness for C2 at a concrete scan: a local-only file is classified, and
its cell coordinates are its own types with a mismatch. -/
theorem claim_C2_classification_witness :
    ItemType.file = itemW.localType ∧ ItemType.empty = itemW.cloudType ∧
      (itemW.localType ≠ itemW.cloudType ∨ itemW.localMd5 ≠ itemW.cloudMd5) :=
  (claim_C2_classification [itemW] itemW ItemType.file ItemType.empty).1 (by decide)

/-- C1: `sync_save` runs exactly three batches in strict sequence — first
`remove_cloud` over the (empty,file), (empty,dir), (file,dir) and (dir,file)
cells, then `create_cloud_dir` over (dir,empty) and (dir,file), then
`upload_file` over (file,empty), (file,dir) and (file,file); each
`multythread_operation` joins its whole pool (its `with` block) before the
next call submits anything, so the run is the concatenation of the three
batches, each a permutation (the cloud-path sort) of its cells'
concatenation; and every (file,file) item is there due to a hash mismatch. -/
theorem claim_C1_sync_save_phases (items : List SyncItemD) :
    ∃ (r c u : List SyncItemD),
      syncSaveRun items =
          r.map SaveAction.removeCloud ++ c.map SaveAction.createCloudDir
            ++ u.map SaveAction.uploadFile ∧
      r.Perm (classify items .empty .file ++ classify items .empty .dir
          ++ classify items .file .dir ++ classify items .dir .file) ∧
      c.Perm (classify items .dir .empty ++ classify items .dir .file) ∧
      u.Perm (classify items .file .empty ++ classify items .file .dir
          ++ classify items .file .file) ∧
      ∀ it ∈ classify items .file .file, it.localMd5 ≠ it.cloudMd5 := by
  refine ⟨sortByCloudPath (classify items .empty .file ++ classify items .empty .dir
        ++ classify items .file .dir ++ classify items .dir .file),
      sortByCloudPath (classify items .dir .empty ++ classify items .dir .file),
      sortByCloudPath (classify items .file .empty ++ classify items .file .dir
        ++ classify items .file .file),
      rfl, sortByCloudPath_perm _, sortByCloudPath_perm _, sortByCloudPath_perm _, ?_⟩
  intro it hmem
  rw [classify_eq_filter] at hmem
  have hp := (List.mem_filter.mp hmem).2
  simp only [needsUpdate, Bool.and_eq_true, Bool.or_eq_true, bne_iff_ne, ne_eq,
    beq_iff_eq] at hp
  rcases hp.1.1 with h | h
  · exact absurd (hp.1.2.trans hp.2.symm) h
  · exact h

/-- Witness for C1 at a concrete scan. -/
theorem claim_C1_sync_save_phases_witness :
    ∃ (r c u : List SyncItemD),
      syncSaveRun [itemW] =
          r.map SaveAction.removeCloud ++ c.map SaveAction.createCloudDir
            ++ u.map SaveAction.uploadFile ∧
      r.Perm (classify [itemW] .empty .file ++ classify [itemW] .empty .dir
          ++ classify [itemW] .file .dir ++ classify [itemW] .dir .file) ∧
      c.Perm (classify [itemW] .dir .empty ++ classify [itemW] .dir .file) ∧
      u.Perm (classify [itemW] .file .empty ++ classify [itemW] .file .dir
          ++ classify [itemW] .file .file) ∧
      ∀ it ∈ classify [itemW] .file .file, it.localMd5 ≠ it.cloudMd5 :=
  claim_C1_sync_save_phases [itemW]

/-- C3 counterexample: a failed Transport call does not leave the item state
unchanged — `remove_cloud` with `remove` returning `False` still flips the
cloud kind of a file to 'empty', and `create_cloud_dir` with `create_dir`
returning `False` still sets it to 'dir'. -/
theorem claim_C3_counterexample :
    (SyncItem.remove_cloud false
        { path := "app:/cat/proj/a.txt", modified := 0, md5 := "h1",
          type := ItemType.file, size := 5 }).type = ItemType.empty ∧
    ({ path := "app:/cat/proj/a.txt", modified := 0, md5 := "h1",
        type := ItemType.file, size := 5 } : ItemState).type ≠ ItemType.empty ∧
    (SyncItem.create_cloud_dir (Except.ok false)
        { path := "app:/cat/proj/d", modified := 0, md5 := "",
          type := ItemType.empty, size := 0 }).type = ItemType.dir := by
  exact ⟨rfl, by decide, rfl⟩

/-- C3 amended: `remove_cloud` sets the cloud kind to 'empty' unconditionally
(the boolean result of `remove` is ignored), and `create_cloud_dir` sets it
to 'dir' whenever `create_dir` returns — with either boolean result; only a
raised exception leaves the state unchanged. -/
theorem claim_C3_amended (b : Bool) (st : ItemState) (e : Unit) :
    SyncItem.remove_cloud b st = { st with type := ItemType.empty } ∧
    SyncItem.create_cloud_dir (Except.ok b) st = { st with type := ItemType.dir } ∧
    SyncItem.create_cloud_dir (Except.error e) st = st :=
  ⟨rfl, rfl, rfl⟩

/-- C4 counterexample: with rules `["build/", "!build/keep.txt"]` the call
`should_ignore("build/x.txt", False)` returns `False`, not `True` — the
directory-only rule `build/` is skipped for a file candidate. -/
theorem claim_C4_counterexample :
    SyncIgnore.should_ignore buildRules "build/x.txt" false = false := by decide

/-- C4 amended: for rules `["build/", "!build/keep.txt"]` both
`should_ignore("build/keep.txt", False)` and `should_ignore("build/x.txt",
False)` return `False`: a directory-only rule never matches a file
candidate (it matches the directory `build` itself, which the scanners skip
before ever asking about files inside it). -/
theorem claim_C4_amended :
    SyncIgnore.should_ignore buildRules "build/keep.txt" false = false ∧
    SyncIgnore.should_ignore buildRules "build/x.txt" false = false ∧
    SyncIgnore.should_ignore buildRules "build" true = true := by decide

/-- C5 counterexample: `remove_cloud` on a cloud-side file state yields kind
'empty' with the stale md5 and size still in place, so the invariant
`kind = empty → md5 = "" ∧ size = 0` is not preserved. -/
theorem claim_C5_counterexample :
    (SyncItem.remove_cloud true
        { path := "app:/cat/proj/a.txt", modified := 0, md5 := "h1",
          type := ItemType.file, size := 5 }).type = ItemType.empty ∧
    (SyncItem.remove_cloud true
        { path := "app:/cat/proj/a.txt", modified := 0, md5 := "h1",
          type := ItemType.file, size := 5 }).md5 ≠ "" ∧
    (SyncItem.remove_cloud true
        { path := "app:/cat/proj/a.txt", modified := 0, md5 := "h1",
          type := ItemType.file, size := 5 }).size ≠ 0 := by
  exact ⟨rfl, by decide, by decide⟩

/-- C5 amended: the invariant holds after construction (`__init__` writes
kind 'empty', md5 `""`, size 0), but every operation that sets the kind to
'empty' (`remove_cloud`, `remove_cloud_dir`, `calc_local_state` on a missing
path, `remove_local`, `remove_local_dir`) writes only the kind and leaves
md5 and size untouched, so the invariant is not preserved when they were
nonempty. -/
theorem claim_C5_amended (now : Int) (b : Bool) (out : FsOutcome)
    (eid rok : Bool) (st : ItemState) :
    ((ItemState.init now).type = ItemType.empty ∧ (ItemState.init now).md5 = ""
      ∧ (ItemState.init now).size = 0) ∧
    SyncItem.remove_cloud b st = { st with type := ItemType.empty } ∧
    SyncItem.remove_cloud_dir b st = { st with type := ItemType.empty } ∧
    SyncItem.calc_local_state FsEntry.missing st = { st with type := ItemType.empty } ∧
    ((SyncItem.remove_local out st).md5 = st.md5 ∧
      (SyncItem.remove_local out st).size = st.size) ∧
    ((SyncItem.remove_local_dir eid rok st).md5 = st.md5 ∧
      (SyncItem.remove_local_dir eid rok st).size = st.size) := by
  refine ⟨⟨rfl, rfl, rfl⟩, rfl, rfl, rfl, ?_, ?_⟩
  · obtain ⟨p, mo, md, ty, sz⟩ := st
    cases ty <;> cases out <;> exact ⟨rfl, rfl⟩
  · unfold SyncItem.remove_local_dir
    cases eid <;> cases rok <;> exact ⟨rfl, rfl⟩

/-! ### Helper lemmas on the retry loop -/

lemma makeRequestGo_sleeps_le (outcomes : Nat → NetOutcome) :
    ∀ (remaining attempt : Nat),
      (makeRequestGo outcomes attempt remaining).2.length ≤ remaining := by
  intro remaining
  induction remaining with
  | zero =>
    intro attempt
    cases h : outcomes attempt <;> simp [makeRequestGo, h]
  | succ n ih =>
    intro attempt
    have hnext := ih (attempt + 1)
    cases h : outcomes attempt with
    | resp r =>
      by_cases h429 : r.status = 429
      · simp only [makeRequestGo, h, if_pos h429, List.length_cons]
        omega
      · by_cases h500 : 500 ≤ r.status
        · simp only [makeRequestGo, h, if_neg h429, if_pos h500, List.length_cons]
          omega
        · simp only [makeRequestGo, h, if_neg h429, if_neg h500, List.length_nil]
          omega
    | netErr =>
      simp only [makeRequestGo, h, List.length_cons]
      omega
    | reqErr =>
      simp only [makeRequestGo, h, List.length_nil]
      omega

lemma makeRequestGo_all_retryable (outcomes : Nat → NetOutcome) :
    ∀ (remaining attempt : Nat),
      (∀ i, attempt ≤ i → i ≤ attempt + remaining → retryableResp (outcomes i)) →
      ∃ r, outcomes (attempt + remaining) = NetOutcome.resp r ∧
        (makeRequestGo outcomes attempt remaining).1 = some r := by
  intro remaining
  induction remaining with
  | zero =>
    intro attempt h
    obtain ⟨r, hr, _⟩ := h attempt le_rfl (by omega)
    refine ⟨r, ?_, ?_⟩
    · simpa using hr
    · simp [makeRequestGo, hr]
  | succ n ih =>
    intro attempt h
    obtain ⟨r, hr, hst⟩ := h attempt le_rfl (by omega)
    obtain ⟨r', hr', hres⟩ := ih (attempt + 1) (fun i h1 h2 => h i (by omega) (by omega))
    refine ⟨r', ?_, ?_⟩
    · have harith : attempt + (n + 1) = (attempt + 1) + n := by omega
      rw [harith]
      exact hr'
    · by_cases h429 : r.status = 429
      · simp [makeRequestGo, hr, h429, hres]
      · have h500 : 500 ≤ r.status := by
          rcases hst with h | h
          · exact absurd h h429
          · exact h
        simp [makeRequestGo, hr, h429, h500, hres]

lemma makeRequestGo_all_netErr (outcomes : Nat → NetOutcome) :
    ∀ (remaining attempt : Nat),
      (∀ i, attempt ≤ i → i ≤ attempt + remaining → outcomes i = NetOutcome.netErr) →
      (makeRequestGo outcomes attempt remaining).1 = none := by
  intro remaining
  induction remaining with
  | zero =>
    intro attempt h
    simp [makeRequestGo, h attempt le_rfl (by omega)]
  | succ n ih =>
    intro attempt h
    have hres := ih (attempt + 1) (fun i h1 h2 => h i (by omega) (by omega))
    simp [makeRequestGo, h attempt le_rfl (by omega), hres]

/-- C6 counterexample: a script of persistent 429 responses against the
upload-URL request of `_upload_file_with_progress` produces exactly three
rate-limit sleeps before the loop gives up — the upload path runs with the
`max_retries = 3` signature default, not with 7 attempts. -/
theorem claim_C6_counterexample :
    (uploadUrlRequest (fun _ => NetOutcome.resp ⟨429, some "5"⟩)).2 =
        [SleepEvent.rateLimit 5, SleepEvent.rateLimit 5, SleepEvent.rateLimit 5] ∧
      (uploadUrlRequest (fun _ => NetOutcome.resp ⟨429, some "5"⟩)).2.length ≠ 7 := by
  exact ⟨rfl, by decide⟩

/-- C6 amended: on an HTTP 429 the loop sleeps exactly
`min(Retry-After, 60)` — with the value defaulting to 1 when the header is
missing or unparsable — before retrying the same fixed request, performing
at most `maxRetries` sleeps; `maxRetries` is the signature default 3 for
generic API calls and also 3 (the same default) for the file-upload path,
which passes no `max_retries` argument. -/
theorem claim_C6_amended :
    parseRetryAfter none = 1 ∧
    parseRetryAfter (some "soon") = 1 ∧
    (∀ (outcomes : Nat → NetOutcome) (attempt remaining : Nat) (r : HttpResp),
      outcomes attempt = NetOutcome.resp r → r.status = 429 →
      ((makeRequestGo outcomes attempt (remaining + 1)).2).head? =
        some (SleepEvent.rateLimit (min (parseRetryAfter r.retryAfter) 60))) ∧
    (∀ (maxRetries : Nat) (outcomes : Nat → NetOutcome),
      (makeRequest maxRetries outcomes).2.length ≤ maxRetries) ∧
    (∀ (outcomes : Nat → NetOutcome), uploadUrlRequest outcomes = makeRequest 3 outcomes) ∧
    (∀ (outcomes : Nat → NetOutcome), apiRequest outcomes = makeRequest 3 outcomes) := by
  refine ⟨rfl, rfl, ?_, ?_, fun _ => rfl, fun _ => rfl⟩
  · intro outcomes attempt remaining r ho hs
    simp [makeRequestGo, ho, hs]
  · intro maxRetries outcomes
    exact makeRequestGo_sleeps_le outcomes maxRetries 0

/-- Witness for C6 amended at a concrete 429 script. -/
theorem claim_C6_amended_witness :
    ((makeRequestGo (fun _ => NetOutcome.resp ⟨429, some "5"⟩) 0 (2 + 1)).2).head? =
      some (SleepEvent.rateLimit (min (parseRetryAfter (some "5")) 60)) :=
  claim_C6_amended.2.2.1 (fun _ => NetOutcome.resp ⟨429, some "5"⟩) 0 2 ⟨429, some "5"⟩
    rfl rfl

/-- C7: when every attempt draws a retryable HTTP response (429 or ≥500),
the exhausted loop returns the response of the last attempt — never a null
result; when every attempt raises a retryable network-layer exception, the
exhausted loop instead returns the explicit failure signal `None`. -/
theorem claim_C7_exhausted_retries (maxRetries : Nat) (outcomes : Nat → NetOutcome) :
    ((∀ i, i ≤ maxRetries → retryableResp (outcomes i)) →
      ∃ r, outcomes maxRetries = NetOutcome.resp r ∧
        (makeRequest maxRetries outcomes).1 = some r) ∧
    ((∀ i, i ≤ maxRetries → outcomes i = NetOutcome.netErr) →
      (makeRequest maxRetries outcomes).1 = none) := by
  constructor
  · intro h
    have := makeRequestGo_all_retryable outcomes maxRetries 0
      (fun i h1 h2 => h i (by omega))
    simpa [makeRequest] using this
  · intro h
    exact makeRequestGo_all_netErr outcomes maxRetries 0 (fun i h1 h2 => h i (by omega))

/-- Witness for C7: persistent 503s return the last error response;
persistent network errors return `None`. -/
theorem claim_C7_exhausted_retries_witness :
    (∃ r, (fun _ => NetOutcome.resp ⟨503, none⟩ : Nat → NetOutcome) 3 = NetOutcome.resp r ∧
      (makeRequest 3 (fun _ => NetOutcome.resp ⟨503, none⟩)).1 = some r) ∧
    (makeRequest 3 (fun _ => NetOutcome.netErr)).1 = none :=
  ⟨(claim_C7_exhausted_retries 3 (fun _ => NetOutcome.resp ⟨503, none⟩)).1
      (fun i _ => ⟨⟨503, none⟩, rfl, Or.inr (by decide)⟩),
    (claim_C7_exhausted_retries 3 (fun _ => NetOutcome.netErr)).2 (fun i _ => rfl)⟩

/-- C8: `upload` first transfers the bytes to the temporary cloud name
`cloud_path + ".tmp"` via the signed URL from `GET /upload`, then renames
the temp object onto the final name with `move`; when the rename fails it
best-effort deletes the temp object and returns failure; and when the
signed-URL request fails nothing is transferred or renamed at all. -/
theorem claim_C8_upload_two_phase (p : String) :
    (YandexDiskClient.upload p true true (some ⟨200, none⟩) 201 true =
      (true, [CloudOp.existsCheck (parentDir p),
              CloudOp.getUploadUrl (p ++ ".tmp"), CloudOp.putBytes (p ++ ".tmp"),
              CloudOp.move (p ++ ".tmp") p])) ∧
    (YandexDiskClient.upload p true true (some ⟨200, none⟩) 201 false =
      (false, [CloudOp.existsCheck (parentDir p),
               CloudOp.getUploadUrl (p ++ ".tmp"), CloudOp.putBytes (p ++ ".tmp"),
               CloudOp.move (p ++ ".tmp") p, CloudOp.remove (p ++ ".tmp")])) ∧
    (YandexDiskClient.upload p true true none 0 true =
      (false, [CloudOp.existsCheck (parentDir p), CloudOp.getUploadUrl (p ++ ".tmp")])) :=
  ⟨rfl, rfl, rfl⟩

/-- C9: `show_status` issues no cloud operation whatsoever, and a missing or
unparsable snapshot cache is reported as "no baseline" by a normal return
(`get_cache` catches the read/parse exception and yields `None`). -/
theorem claim_C9_show_status_local_only (cr : CacheRead)
    (localItems : List (String × LocalKind)) :
    (show_status cr localItems).2 = [] ∧
    (show_status CacheRead.missing localItems).1 = StatusReport.noBaseline ∧
    (show_status CacheRead.corrupt localItems).1 = StatusReport.noBaseline := by
  refine ⟨?_, rfl, rfl⟩
  cases cr with
  | missing => rfl
  | corrupt => rfl
  | parsed c =>
    simp only [show_status, get_cache]
    split <;> rfl

/-- C10: `create_dir` reads `response.status_code` without a `None` guard,
so the request layer's explicit failure signal `None` (produced for example
by exhausted network-layer retries) makes it raise `AttributeError` instead
of returning `False` — unlike `remove`, `move` and `copy`, which all guard
against `None` and return `False`. -/
theorem claim_C10_create_dir_none_crash (cp er : Bool) (pr rr : Except PyErr Bool) :
    YandexDiskClient.create_dir none cp er pr rr = Except.error PyErr.attributeError ∧
    YandexDiskClient.remove none = false ∧
    YandexDiskClient.move none = false ∧
    YandexDiskClient.copy none = false ∧
    (makeRequest 3 (fun _ => NetOutcome.netErr)).1 = none :=
  ⟨rfl, rfl, rfl, rfl, rfl⟩

end SyncBase
